import Mathlib

/-! Kinesis connector: consumer loop and configuration.

A shallow embedding of `config.go` and `consumer.go`.

* Go pointers to strings (`*string`) are addresses paired with the string they
  point to; `==` on pointers compares addresses only.
* The Kinesis service and the `Checkpoint` interface are stateful collaborators:
  each call takes the collaborator's state and returns its answer together
  with the next state, so a theorem quantified over them covers every sequence
  of backend responses.
* Every call a worker makes on a collaborator, on the handler, on the logger or
  on its buffer is recorded as an `Effect`, in program order.
* `handlerLoop` is an endless `for`; the embedding runs a given number of
  iterations of it.
-/

namespace Connector

/-! ## Data model -/

/-- A Go `*string` that is not nil: the address, and the string stored there. -/
structure StrPtr where
  addr : Nat
  val : String
deriving DecidableEq

/-- Go `==` on two `*string` values: both nil, or the same address. -/
def ptrEq : Option StrPtr → Option StrPtr → Bool
  | none, none => true
  | some p, some q => decide (p.addr = q.addr)
  | _, _ => false

/-- The record type of the Kinesis SDK, reduced to the fields a consumer reads. -/
structure Record where
  SequenceNumber : String
  PartitionKey : String
  Data : List Nat
deriving DecidableEq

/-- Modelled from the spec: the `Buffer` type of the connector (its source file is
not part of the sources at hand), after section 4.1: an ordered list of records,
the capacity bound and the shard the buffer belongs to. -/
structure Buffer where
  records : List Record
  MaxRecordCount : Int
  shardID : String
deriving DecidableEq

namespace Buffer

/-- Modelled from the spec: `AddRecord` of the absent `Buffer` appends the record;
no bound check is made. -/
def AddRecord (b : Buffer) (r : Record) : Buffer :=
  { b with records := b.records ++ [r] }

/-- Modelled from the spec: `RecordCount` of the absent `Buffer` is the number of
buffered records. -/
def RecordCount (b : Buffer) : Int :=
  (b.records.length : Int)

/-- Modelled from the spec: `ShouldFlush` of the absent `Buffer` is true iff the
record count has reached `MaxRecordCount`. -/
def ShouldFlush (b : Buffer) : Bool :=
  decide (b.MaxRecordCount ≤ b.RecordCount)

/-- Modelled from the spec: `LastSeq` of the absent `Buffer` is the sequence number
of the most recently appended record, the empty string on an empty buffer. -/
def LastSeq (b : Buffer) : String :=
  match b.records.getLast? with
  | some r => r.SequenceNumber
  | none => ""

/-- Modelled from the spec: `Flush` of the absent `Buffer` clears the records and
keeps the capacity and the shard identifier. -/
def Flush (b : Buffer) : Buffer :=
  { b with records := [] }

end Buffer

/-- Input of the SDK call `GetShardIterator`; a nil field is `none`. -/
structure GetShardIteratorInput where
  ShardId : Option String
  StreamName : Option String
  ShardIteratorType : Option String
  StartingSequenceNumber : Option String
deriving DecidableEq

/-- Output of the SDK call `GetShardIterator`. -/
structure GetShardIteratorOutput where
  ShardIterator : Option StrPtr
deriving DecidableEq

/-- Input of the SDK call `GetRecords`. -/
structure GetRecordsInput where
  ShardIterator : Option StrPtr
deriving DecidableEq

/-- Output of the SDK call `GetRecords`. -/
structure GetRecordsOutput where
  Records : List Record
  NextShardIterator : Option StrPtr
deriving DecidableEq

/-- The two calls the worker makes on the Kinesis client `c.svc`, over a backend
state `β`. Each returns the Go pair `(resp, err)` and the next backend state. -/
structure Kinesis (β : Type) where
  GetRecords : β → GetRecordsInput → (Option GetRecordsOutput × Option String) × β
  GetShardIterator :
    β → GetShardIteratorInput → (Option GetShardIteratorOutput × Option String) × β

/-- The `Checkpoint` interface as `consumer.go` calls it, over the state `κ` of the
object behind the interface: `CheckpointExists(shardID)`, `SequenceNumber()` without
an argument, and `SetCheckpoint(shardID, sequenceNumber)` whose result, if any, the
caller drops. Any of the three may change the object. -/
structure Checkpoint (κ : Type) where
  CheckpointExists : κ → String → Bool × κ
  SequenceNumber : κ → String × κ
  SetCheckpoint : κ → String → String → Option String × κ

/-- A value of a logrus field. -/
inductive FieldVal where
  | str (s : String)
  | int (i : Int)
  | err (e : String)
deriving DecidableEq

/-- Severity of a log entry. -/
inductive Level where
  | info
  | error
deriving DecidableEq

/-- One entry written through logrus. -/
structure LogEntry where
  level : Level
  msg : String
  fields : List (String × FieldVal)
deriving DecidableEq

/-- The calls of a worker, in program order. -/
inductive Effect where
  | Log (e : LogEntry)
  | CheckpointExists (shardID : String)
  | SequenceNumber
  | GetShardIterator (params : GetShardIteratorInput)
  | GetRecords (input : GetRecordsInput)
  | AddRecord (r : Record)
  | HandleRecords (batch : Buffer)
  | SetCheckpoint (shardID : String) (sequenceNumber : String)
  | Flush
deriving DecidableEq

/-- How a worker stops: `os.Exit(code)`, or a nil-pointer dereference. -/
inductive Halt where
  | exit (code : Nat)
  | nilDeref
deriving DecidableEq

/-- The collaborators a worker talks to: the backend and the checkpoint object. -/
structure World (β κ : Type) where
  svc : β
  checkpoint : κ

/-- Result of running a piece of the worker: the value (or how the worker stopped),
the collaborators afterwards, and the effects emitted on the way. -/
structure Step (β κ α : Type) where
  result : Except Halt α
  world : World β κ
  events : List Effect

/-! ## config.go -/

/-- The constant `defaultBufferSize`. -/
def defaultBufferSize : Int := 500

/-- The constant `time.Second`, in nanoseconds. -/
def timeSecond : Int := 1000000000

/-- The struct `Config`. `Λ` is the logger type, `κ` the type of checkpoint objects;
a nil pointer or nil interface is `none`. -/
structure Config (κ Λ : Type) where
  AppName : String
  StreamName : String
  StreamRegion : String
  FlushInterval : Int
  BufferSize : Int
  Logger : Option Λ
  Checkpoint : Option κ

/-- Result of `setDefaults`: what was logged, and either the filled-in configuration
or the status the process exited with. -/
structure Startup (κ Λ : Type) where
  logged : List LogEntry
  result : Except Nat (Config κ Λ)

/-- The log entry of a failed configuration check. -/
def configError (msg : String) : LogEntry :=
  { level := Level.error, msg := msg, fields := [("type", FieldVal.str "config")] }

/-- The method `(c *Config) setDefaults()`. `logNew` is the value of `log.New()`,
`defaultRedisClient` the outcome of the function of that name (it pings a server),
`RedisCheckpoint` builds the default checkpoint from application name, stream name
and client. -/
def setDefaults {κ Λ R : Type} (logNew : Λ) (defaultRedisClient : Except String R)
    (RedisCheckpoint : String → String → R → κ) (c : Config κ Λ) : Startup κ Λ :=
  let c := if c.Logger.isNone then { c with Logger := some logNew } else c
  if c.AppName = "" then
    { logged := [configError "AppName required"], result := Except.error 1 }
  else if c.StreamName = "" then
    { logged := [configError "StreamName required"], result := Except.error 1 }
  else if c.StreamRegion = "" then
    { logged := [configError "StreamRegion required"], result := Except.error 1 }
  else
    let c := if c.BufferSize = 0 then { c with BufferSize := defaultBufferSize } else c
    let c := if c.FlushInterval = 0 then { c with FlushInterval := timeSecond } else c
    if c.Checkpoint.isNone then
      match defaultRedisClient with
      | Except.error e =>
        { logged := [{ level := Level.error, msg := "Redis connection failed",
                       fields := [("error", FieldVal.err e)] }],
          result := Except.error 1 }
      | Except.ok client =>
        { logged := [],
          result := Except.ok
            { c with Checkpoint := some (RedisCheckpoint c.AppName c.StreamName client) } }
    else
      { logged := [], result := Except.ok c }

/-! ## consumer.go -/

/-- The local state of one `handlerLoop`: its buffer and its shard iterator. -/
structure Worker where
  buf : Buffer
  shardIterator : Option StrPtr
deriving DecidableEq

/-- The method `(c *Consumer) getShardIterator(shardID)`, reading `c.StreamName` and
calling `c.Checkpoint` and `c.svc`. -/
def getShardIterator {β κ : Type} (K : Kinesis β) (C : Checkpoint κ) (StreamName : String)
    (shardID : String) (w : World β κ) : Step β κ (Option StrPtr) :=
  let ex := C.CheckpointExists w.checkpoint shardID
  let p : GetShardIteratorInput × κ × List Effect :=
    if ex.1 then
      let sn := C.SequenceNumber ex.2
      ({ ShardId := some shardID, StreamName := some StreamName,
         ShardIteratorType := some "AFTER_SEQUENCE_NUMBER",
         StartingSequenceNumber := some sn.1 },
       sn.2, [Effect.CheckpointExists shardID, Effect.SequenceNumber])
    else
      ({ ShardId := some shardID, StreamName := some StreamName,
         ShardIteratorType := some "TRIM_HORIZON",
         StartingSequenceNumber := none },
       ex.2, [Effect.CheckpointExists shardID])
  let params := p.1
  let cp := p.2.1
  let pre := p.2.2
  let r := K.GetShardIterator w.svc params
  let w1 : World β κ := { svc := r.2, checkpoint := cp }
  match r.1.2 with
  | some e =>
    { result := Except.error (Halt.exit 1), world := w1,
      events := pre ++ [Effect.GetShardIterator params,
        Effect.Log { level := Level.error, msg := "GetShardIterator",
                     fields := [("error", FieldVal.err e)] }] }
  | none =>
    match r.1.1 with
    | none =>
      { result := Except.error Halt.nilDeref, world := w1,
        events := pre ++ [Effect.GetShardIterator params] }
    | some resp =>
      { result := Except.ok resp.ShardIterator, world := w1,
        events := pre ++ [Effect.GetShardIterator params] }

/-- The body of `for _, r := range resp.Records` in `handlerLoop`, for one record:
append, and when the buffer says so, hand the buffer to the handler, log, write the
checkpoint (dropping what `SetCheckpoint` returns) and clear the buffer. -/
def recordStep {κ : Type} (C : Checkpoint κ) (shardID : String) (st : Buffer × κ)
    (r : Record) : (Buffer × κ) × List Effect :=
  let buf := st.1.AddRecord r
  if buf.ShouldFlush then
    let cp := (C.SetCheckpoint st.2 shardID buf.LastSeq).2
    ((buf.Flush, cp),
      [Effect.AddRecord r,
       Effect.HandleRecords buf,
       Effect.Log { level := Level.info, msg := "flushed",
                    fields := [("shard", FieldVal.str shardID),
                               ("count", FieldVal.int buf.RecordCount)] },
       Effect.SetCheckpoint shardID buf.LastSeq,
       Effect.Flush])
  else
    ((buf, st.2), [Effect.AddRecord r])

/-- The loop `for _, r := range resp.Records` in `handlerLoop` (the enclosing
`if len(resp.Records) > 0` only skips a loop that would not run). -/
def recordsLoop {κ : Type} (C : Checkpoint κ) (shardID : String) :
    Buffer × κ → List Record → (Buffer × κ) × List Effect
  | st, [] => (st, [])
  | st, r :: rs =>
    let s1 := recordStep C shardID st r
    let s2 := recordsLoop C shardID s1.1 rs
    (s2.1, s1.2 ++ s2.2)

/-- The condition of the last `if` of the loop body of `handlerLoop`:
`resp == nil || resp.NextShardIterator == nil || shardIterator == resp.NextShardIterator`. -/
def needsNewIterator (shardIterator : Option StrPtr) : Option GetRecordsOutput → Bool
  | none => true
  | some resp => resp.NextShardIterator.isNone || ptrEq shardIterator resp.NextShardIterator

/-- The last `if` of the loop body of `handlerLoop`: choose the iterator of the next
iteration. -/
def nextIterator {β κ : Type} (K : Kinesis β) (C : Checkpoint κ) (StreamName : String)
    (shardID : String) (buf : Buffer) (shardIterator : Option StrPtr)
    (resp : Option GetRecordsOutput) (w : World β κ) : Step β κ Worker :=
  if needsNewIterator shardIterator resp then
    let g := getShardIterator K C StreamName shardID w
    { result := g.result.map (fun it => { buf := buf, shardIterator := it }),
      world := g.world, events := g.events }
  else
    { result := Except.ok
        { buf := buf, shardIterator := resp.bind (fun o => o.NextShardIterator) },
      world := w, events := [] }

/-- One pass through the body of the `for` of `handlerLoop`. -/
def iteration {β κ : Type} (K : Kinesis β) (C : Checkpoint κ) (StreamName : String)
    (shardID : String) (wk : Worker) (w : World β κ) : Step β κ Worker :=
  let input : GetRecordsInput := { ShardIterator := wk.shardIterator }
  let r := K.GetRecords w.svc input
  let resp := r.1.1
  match r.1.2 with
  | some e =>
    let n := nextIterator K C StreamName shardID wk.buf wk.shardIterator resp
      { svc := r.2, checkpoint := w.checkpoint }
    { n with events :=
        [Effect.GetRecords input,
         Effect.Log { level := Level.error, msg := "GetRecords",
                      fields := [("shard", FieldVal.str shardID),
                                 ("error", FieldVal.err e)] }] ++ n.events }
  | none =>
    match resp with
    | none =>
      { result := Except.error Halt.nilDeref,
        world := { svc := r.2, checkpoint := w.checkpoint },
        events := [Effect.GetRecords input] }
    | some out =>
      let l := recordsLoop C shardID (wk.buf, w.checkpoint) out.Records
      let n := nextIterator K C StreamName shardID l.1.1 wk.shardIterator resp
        { svc := r.2, checkpoint := l.1.2 }
      { n with events := [Effect.GetRecords input] ++ l.2 ++ n.events }

/-- The `for` of `handlerLoop`, run for a given number of iterations (a worker that
stops on the way stays stopped). -/
def loop {β κ : Type} (K : Kinesis β) (C : Checkpoint κ) (StreamName : String)
    (shardID : String) : Nat → Worker → World β κ → Step β κ Worker
  | 0, wk, w => { result := Except.ok wk, world := w, events := [] }
  | n + 1, wk, w =>
    let s := iteration K C StreamName shardID wk w
    match s.result with
    | Except.error h => { result := Except.error h, world := s.world, events := s.events }
    | Except.ok wk1 =>
      let t := loop K C StreamName shardID n wk1 s.world
      { t with events := s.events ++ t.events }

/-- The method `(c *Consumer) handlerLoop(shardID, handler)`, run for `n` iterations
of its `for`. It reads `c.BufferSize` and `c.StreamName` from the configuration. -/
def handlerLoop {β κ Λ : Type} (K : Kinesis β) (C : Checkpoint κ) (c : Config κ Λ)
    (shardID : String) (n : Nat) (w : World β κ) : Step β κ Worker :=
  let buf : Buffer := { MaxRecordCount := c.BufferSize, shardID := shardID, records := [] }
  let start : Effect :=
    Effect.Log { level := Level.info, msg := "processing",
                 fields := [("shard", FieldVal.str shardID)] }
  let g := getShardIterator K C c.StreamName shardID w
  match g.result with
  | Except.error h =>
    { result := Except.error h, world := g.world, events := start :: g.events }
  | Except.ok it =>
    let t := loop K C c.StreamName shardID n { buf := buf, shardIterator := it } g.world
    { t with events := start :: (g.events ++ t.events) }

/-! ## Reading a trace -/

/-- The batches handed to the handler, in order. -/
def handled (es : List Effect) : List Buffer :=
  es.filterMap fun e =>
    match e with
    | Effect.HandleRecords b => some b
    | _ => none

/-- The checkpoint writes `(shardID, sequenceNumber)`, in order. -/
def checkpointed (es : List Effect) : List (String × String) :=
  es.filterMap fun e =>
    match e with
    | Effect.SetCheckpoint sh q => some (sh, q)
    | _ => none

/-- The cursor requests sent to the backend, in order. -/
def cursorRequests (es : List Effect) : List GetShardIteratorInput :=
  es.filterMap fun e =>
    match e with
    | Effect.GetShardIterator q => some q
    | _ => none

/-- Whether an effect is a log entry. -/
def isLog : Effect → Bool
  | Effect.Log _ => true
  | _ => false

/-- The trace without its log entries: the calls on handler, checkpoint, buffer and
backend. -/
def calls (es : List Effect) : List Effect :=
  es.filter fun e => !isLog e

/-- Whether an effect is one of those `getShardIterator` can emit. -/
def isCursorEvent : Effect → Bool
  | Effect.Log _ => true
  | Effect.CheckpointExists _ => true
  | Effect.SequenceNumber => true
  | Effect.GetShardIterator _ => true
  | _ => false

/-- Whether an effect belongs to a flush cycle: the handler call, the checkpoint write,
the clearing of the buffer. -/
def isFlushCall : Effect → Bool
  | Effect.HandleRecords _ => true
  | Effect.SetCheckpoint _ _ => true
  | Effect.Flush => true
  | _ => false

/-- A list of calls in which the calls of flush cycles occur only as whole cycles on
shard `sh`: a handler call on a batch, the checkpoint write of that batch's last
sequence number, the clearing of the buffer, one right after the other. -/
inductive FlushCycles (sh : String) : List Effect → Prop
  | nil : FlushCycles sh []
  | other (e : Effect) (t : List Effect) :
      isFlushCall e = false → FlushCycles sh t → FlushCycles sh (e :: t)
  | cycle (b : Buffer) (t : List Effect) :
      FlushCycles sh t →
      FlushCycles sh
        (Effect.HandleRecords b :: Effect.SetCheckpoint sh b.LastSeq :: Effect.Flush :: t)

/-- The buffer contents after one effect: `AddRecord` appends, `Flush` clears, nothing
else touches the buffer. -/
def applyEffect (b : List Record) : Effect → List Record
  | Effect.AddRecord r => b ++ [r]
  | Effect.Flush => []
  | _ => b

/-- The buffer contents after a trace, from the contents before it. -/
def bufferAfter (b : List Record) (es : List Effect) : List Record :=
  es.foldl applyEffect b

/-- Whether an effect is an append to the buffer or a poll of the backend. -/
def isAppendOrPoll : Effect → Bool
  | Effect.AddRecord _ => true
  | Effect.GetRecords _ => true
  | _ => false

/-- The buffer stays within the bound `M` along a trace that starts with the buffer
contents `b`: it never holds more than `M` records, and holds fewer than `M` whenever
a record is appended or the backend is polled. -/
def boundedAlong (M : Nat) : List Record → List Effect → Prop
  | b, [] => b.length ≤ M
  | b, e :: t =>
    b.length ≤ M ∧ (isAppendOrPoll e = true → b.length < M) ∧
      boundedAlong M (applyEffect b e) t

/-! ## Simulated collaborators -/

/-- Modelled from the spec: the checkpoint store behind the `Checkpoint` interface
(neither the interface declaration nor an implementation of it is part of the sources
at hand), after section 4.2: a durable mapping from partition to the last written
sequence, most recent write first. `asked` is the partition of the latest
`CheckpointExists` call, `failing` says whether writes to the store fail. -/
structure CheckpointStore where
  entries : List (String × String)
  asked : String
  failing : Bool
deriving DecidableEq

/-- Modelled from the spec: the last checkpointed sequence of a partition in the
absent checkpoint store, if one was ever written. -/
def CheckpointStore.last (st : CheckpointStore) (p : String) : Option String :=
  st.entries.lookup p

/-- Modelled from the spec: the operations of the absent checkpoint store, after
section 4.2. `Exists` is true iff a checkpoint was ever written for the partition;
`SetCheckpoint` records the sequence for the partition, overwriting the prior value,
or fails and records nothing; `SequenceNumber` is the last checkpointed sequence of the
partition. The source calls `SequenceNumber()` without a partition, only after
`CheckpointExists(shardID)` answered true: it is read at that partition. -/
def specCheckpoint : Checkpoint CheckpointStore where
  CheckpointExists := fun st p => ((st.last p).isSome, { st with asked := p })
  SequenceNumber := fun st => (((st.last st.asked).getD ""), st)
  SetCheckpoint := fun st p s =>
    if st.failing then (some "checkpoint write failed", st)
    else (none, { st with entries := (p, s) :: st.entries })

/-- A simulated backend: the answers it will give to the coming `GetRecords` calls
and to the coming `GetShardIterator` calls, in order. -/
structure Script where
  polls : List (Option GetRecordsOutput × Option String)
  cursors : List (Option GetShardIteratorOutput × Option String)
deriving DecidableEq

/-- The simulated backend answers each call with the next scripted answer, and with an
error once the script is used up. -/
def scripted : Kinesis Script where
  GetRecords := fun s _ =>
    match s.polls with
    | [] => ((none, some "no scripted answer"), s)
    | a :: rest => (a, { s with polls := rest })
  GetShardIterator := fun s _ =>
    match s.cursors with
    | [] => ((none, some "no scripted answer"), s)
    | a :: rest => (a, { s with cursors := rest })

/-- A record with the given sequence number. -/
def recordOf (seq : String) : Record :=
  { SequenceNumber := seq, PartitionKey := "k", Data := [] }

/-! ## Scenarios -/

/-- A configuration with the three names set, a checkpoint object, and a batch size
of 501. -/
def config501 : Config CheckpointStore Unit :=
  { AppName := "app", StreamName := "stream", StreamRegion := "region",
    FlushInterval := 0, BufferSize := 501, Logger := none,
    Checkpoint := some { entries := [], asked := "", failing := false } }

/-- A backend that hands out one iterator and then has nothing more to say. -/
def oneCursor : Script :=
  { polls := [], cursors := [(some { ShardIterator := some { addr := 1, val := "it-1" } }, none)] }

/-- The empty buffer of shard `shard-0` with the given bound. -/
def emptyBuffer (M : Int) : Buffer :=
  { records := [], MaxRecordCount := M, shardID := "shard-0" }

/-- A checkpoint store in which nothing was written yet and writes succeed. -/
def freshStore : CheckpointStore :=
  { entries := [], asked := "", failing := false }

/-- One poll answering with the records 1 to 5 and a new iterator. -/
def fivePoll : GetRecordsOutput :=
  { Records := [recordOf "1", recordOf "2", recordOf "3", recordOf "4", recordOf "5"],
    NextShardIterator := some { addr := 2, val := "it-2" } }

/-- A configuration with the three names set and a batch size of 2. -/
def config2 : Config CheckpointStore Unit :=
  { AppName := "app", StreamName := "stream", StreamRegion := "region",
    FlushInterval := 0, BufferSize := 2, Logger := some (),
    Checkpoint := some freshStore }

/-- A backend that hands out one iterator and answers one poll with the records 1 to 5. -/
def fiveBackend : Script :=
  { polls := [(some fivePoll, none)],
    cursors := [(some { ShardIterator := some { addr := 1, val := "it-1" } }, none)] }

/-- A checkpoint store in which nothing was written yet and every write fails. -/
def failingStore : CheckpointStore :=
  { entries := [], asked := "", failing := true }

/-- A worker with an empty buffer of bound 2 whose iterator is the pointer at address 1
to the token `A`. -/
def workerA : Worker :=
  { buf := emptyBuffer 2, shardIterator := some { addr := 1, val := "A" } }

/-- A backend whose next poll succeeds with no records and hands back the token `A`
again, in a newly allocated string at address 2; it would answer a cursor request with
the token `B`. -/
def stalledBackend : Script :=
  { polls := [(some { Records := [], NextShardIterator := some { addr := 2, val := "A" } },
               none)],
    cursors := [(some { ShardIterator := some { addr := 3, val := "B" } }, none)] }

/-- A backend whose next poll fails with a nil response; it answers a cursor request
with the token `B`. -/
def failingPollBackend : Script :=
  { polls := [(none, some "ProvisionedThroughputExceededException")],
    cursors := [(some { ShardIterator := some { addr := 3, val := "B" } }, none)] }

/-- A backend for a worker without checkpoint: two cursor requests are answered, the
first poll returns the records 1 and 2 and no next iterator, the second poll returns
the records 1 and 2 again. -/
def replayBackend : Script :=
  { polls := [(some { Records := [recordOf "1", recordOf "2"], NextShardIterator := none },
               none),
              (some { Records := [recordOf "1", recordOf "2"],
                      NextShardIterator := some { addr := 5, val := "it-5" } }, none)],
    cursors := [(some { ShardIterator := some { addr := 1, val := "it-1" } }, none),
                (some { ShardIterator := some { addr := 2, val := "it-2" } }, none)] }

/-- A configuration with the three names set and a batch size of 3. -/
def config3 : Config CheckpointStore Unit :=
  { AppName := "app", StreamName := "stream", StreamRegion := "region",
    FlushInterval := 0, BufferSize := 3, Logger := some (),
    Checkpoint := some freshStore }

/-! # Properties -/

/-! ## Configuration -/

/-- Claim C8: with a checkpoint object supplied, `setDefaults` ends startup (one error
entry logged, exit status 1) exactly when `AppName`, `StreamName` or `StreamRegion` is
empty; when none is, it returns a configuration with the same three names, the same
checkpoint object, and the same `BufferSize`, `FlushInterval` and `Logger` wherever
these were already set. -/
theorem C8_setDefaults_fatal_iff_name_missing {κ Λ R : Type} (logNew : Λ)
    (defaultRedisClient : Except String R) (RedisCheckpoint : String → String → R → κ)
    (c : Config κ Λ) (hcp : c.Checkpoint ≠ none) :
    (((setDefaults logNew defaultRedisClient RedisCheckpoint c).result = Except.error 1 ∧
        ∃ e, (setDefaults logNew defaultRedisClient RedisCheckpoint c).logged = [e] ∧
          e.level = Level.error)
      ↔ (c.AppName = "" ∨ c.StreamName = "" ∨ c.StreamRegion = "")) ∧
    (c.AppName ≠ "" → c.StreamName ≠ "" → c.StreamRegion ≠ "" →
      ∃ d, (setDefaults logNew defaultRedisClient RedisCheckpoint c).result = Except.ok d ∧
        d.AppName = c.AppName ∧ d.StreamName = c.StreamName ∧
        d.StreamRegion = c.StreamRegion ∧ d.Checkpoint = c.Checkpoint ∧
        (c.BufferSize ≠ 0 → d.BufferSize = c.BufferSize) ∧
        (c.FlushInterval ≠ 0 → d.FlushInterval = c.FlushInterval) ∧
        (c.Logger ≠ none → d.Logger = c.Logger)) := by
  obtain ⟨k, hk⟩ := Option.ne_none_iff_exists'.mp hcp
  by_cases h1 : c.AppName = ""
  · refine ⟨?_, fun h => absurd h1 h⟩
    simp [setDefaults, h1, configError, apply_ite]
  by_cases h2 : c.StreamName = ""
  · refine ⟨?_, fun _ h => absurd h2 h⟩
    simp [setDefaults, h1, h2, configError, apply_ite]
  by_cases h3 : c.StreamRegion = ""
  · refine ⟨?_, fun _ _ h => absurd h3 h⟩
    simp [setDefaults, h1, h2, h3, configError, apply_ite]
  constructor
  · cases hl : c.Logger <;> by_cases hb : c.BufferSize = 0 <;>
      by_cases hf : c.FlushInterval = 0 <;>
      simp [setDefaults, h1, h2, h3, hk, hl, hb, hf]
  · intro _ _ _
    cases hl : c.Logger <;> by_cases hb : c.BufferSize = 0 <;>
      by_cases hf : c.FlushInterval = 0 <;>
      simp [setDefaults, h1, h2, h3, hk, hl, hb, hf]

/-- Witness for claim C8 on a configuration with all three names set. -/
theorem C8_setDefaults_fatal_iff_name_missing_witness :
    config501.Checkpoint ≠ none ∧
    (((setDefaults () (Except.error "down" : Except String Unit)
          (fun _ _ _ => { entries := [], asked := "", failing := false }) config501).result
          = Except.error 1 ∧
        ∃ e, (setDefaults () (Except.error "down" : Except String Unit)
          (fun _ _ _ => { entries := [], asked := "", failing := false }) config501).logged
            = [e] ∧ e.level = Level.error)
      ↔ (config501.AppName = "" ∨ config501.StreamName = "" ∨
          config501.StreamRegion = "")) :=
  ⟨Option.some_ne_none _,
   (C8_setDefaults_fatal_iff_name_missing () (Except.error "down" : Except String Unit)
      (fun _ _ _ => { entries := [], asked := "", failing := false }) config501
      (Option.some_ne_none _)).1⟩

/-- Claim C7 (what the code does): a `BufferSize` of 0 becomes 500, but `setDefaults`
returns on a configuration with `BufferSize` 501 and leaves the 501 in place, and
`handlerLoop` then creates its buffer with `MaxRecordCount` 501. -/
theorem C7_bufferSize_above_500_kept :
    (∃ d, (setDefaults () (Except.error "down" : Except String Unit)
        (fun _ _ _ => { entries := [], asked := "", failing := false })
        { config501 with BufferSize := 0 }).result = Except.ok d ∧ d.BufferSize = 500) ∧
    (∃ d, (setDefaults () (Except.error "down" : Except String Unit)
        (fun _ _ _ => { entries := [], asked := "", failing := false })
        config501).result = Except.ok d ∧ d.BufferSize = 501 ∧
      ∃ wk, (handlerLoop scripted specCheckpoint d "shard-0" 0
        { svc := oneCursor, checkpoint := { entries := [], asked := "", failing := false } }).result
          = Except.ok wk ∧ wk.buf.MaxRecordCount = 501) := by
  refine ⟨⟨_, rfl, rfl⟩, ⟨_, rfl, rfl, _, rfl, rfl⟩⟩

/-! ## The records loop -/

theorem lastSeq_addRecord (b : Buffer) (r : Record) :
    (b.AddRecord r).LastSeq = r.SequenceNumber := by
  simp [Buffer.LastSeq, Buffer.AddRecord]

theorem shouldFlush_iff (b : Buffer) (M : Nat) (hM : b.MaxRecordCount = M) :
    b.ShouldFlush = true ↔ M ≤ b.records.length := by
  simp [Buffer.ShouldFlush, Buffer.RecordCount, hM]

theorem recordStep_below {κ : Type} (C : Checkpoint κ) (sh : String) (b : Buffer) (k : κ)
    (r : Record) (M : Nat) (hM : b.MaxRecordCount = M) (h : b.records.length + 1 < M) :
    recordStep C sh (b, k) r = ((b.AddRecord r, k), [Effect.AddRecord r]) := by
  have hf : (b.AddRecord r).ShouldFlush = false := by
    have := shouldFlush_iff (b.AddRecord r) M (by simpa [Buffer.AddRecord] using hM)
    cases hs : (b.AddRecord r).ShouldFlush
    · rfl
    · have := this.mp hs
      simp [Buffer.AddRecord] at this
      omega
  simp [recordStep, hf]

theorem recordStep_full {κ : Type} (C : Checkpoint κ) (sh : String) (b : Buffer) (k : κ)
    (r : Record) (M : Nat) (hM : b.MaxRecordCount = M) (h : M ≤ b.records.length + 1) :
    recordStep C sh (b, k) r =
      (((b.AddRecord r).Flush, (C.SetCheckpoint k sh r.SequenceNumber).2),
        [Effect.AddRecord r,
         Effect.HandleRecords (b.AddRecord r),
         Effect.Log { level := Level.info, msg := "flushed",
                      fields := [("shard", FieldVal.str sh),
                                 ("count", FieldVal.int (b.AddRecord r).RecordCount)] },
         Effect.SetCheckpoint sh r.SequenceNumber,
         Effect.Flush]) := by
  have hf : (b.AddRecord r).ShouldFlush = true := by
    apply (shouldFlush_iff (b.AddRecord r) M (by simpa [Buffer.AddRecord] using hM)).mpr
    simpa [Buffer.AddRecord] using h
  simp [recordStep, hf, lastSeq_addRecord]

theorem handled_cons_add (r : Record) (es : List Effect) :
    handled (Effect.AddRecord r :: es) = handled es := by
  simp [handled]

theorem checkpointed_cons_add (r : Record) (es : List Effect) :
    checkpointed (Effect.AddRecord r :: es) = checkpointed es := by
  simp [checkpointed]

/-- What the records loop does to a buffer below its bound `M`: the batches handed
over are the consecutive blocks of `M` records of (buffered ++ polled), the checkpoint
written after each block is the sequence number of the block's last record, and the
records after the last full block stay buffered. -/
theorem recordsLoop_blocks {κ : Type} (C : Checkpoint κ) (sh : String) (M : Nat) :
    ∀ (rs : List Record) (b : Buffer) (k : κ), b.MaxRecordCount = M →
      b.records.length < M →
      handled (recordsLoop C sh (b, k) rs).2 =
        (List.range ((b.records.length + rs.length) / M)).map
          (fun j => { b with records := ((b.records ++ rs).drop (j * M)).take M }) ∧
      checkpointed (recordsLoop C sh (b, k) rs).2 =
        (List.range ((b.records.length + rs.length) / M)).map
          (fun j => (sh, (((b.records ++ rs)[j * M + (M - 1)]?).map
            Record.SequenceNumber).getD "")) ∧
      (recordsLoop C sh (b, k) rs).1.1 =
        { b with records :=
            (b.records ++ rs).drop ((b.records.length + rs.length) / M * M) } := by
  intro rs
  induction rs with
  | nil =>
    intro b k _ hlt
    simp [recordsLoop, Nat.div_eq_of_lt hlt, handled, checkpointed]
  | cons r rs ih =>
    intro b k hM hlt
    rcases Nat.lt_or_ge (b.records.length + 1) M with h | h
    · have hb : (b.AddRecord r).MaxRecordCount = M := by simpa [Buffer.AddRecord] using hM
      have hl : (b.AddRecord r).records.length < M := by simpa [Buffer.AddRecord] using h
      obtain ⟨i1, i2, i3⟩ := ih (b.AddRecord r) k hb hl
      have e1 : b.records.length + (rs.length + 1) = b.records.length + 1 + rs.length := by
        omega
      simp only [recordsLoop, recordStep_below C sh b k r M hM h, List.singleton_append,
        handled_cons_add, checkpointed_cons_add, List.length_cons, e1]
      refine ⟨?_, ?_, ?_⟩
      · rw [i1]; simp [Buffer.AddRecord]
      · rw [i2]; simp [Buffer.AddRecord]
      · rw [i3]; simp [Buffer.AddRecord]
    · have hlen : (b.records ++ [r]).length = M := by simp; omega
      have hb : ((b.AddRecord r).Flush).MaxRecordCount = M := by
        simpa [Buffer.AddRecord, Buffer.Flush] using hM
      have hl : ((b.AddRecord r).Flush).records.length < M := by
        simp [Buffer.Flush]; omega
      obtain ⟨i1, i2, i3⟩ :=
        ih ((b.AddRecord r).Flush) (C.SetCheckpoint k sh r.SequenceNumber).2 hb hl
      have e1 : (b.records.length + (rs.length + 1)) / M = rs.length / M + 1 := by
        have : b.records.length + (rs.length + 1) = rs.length + M := by omega
        rw [this, Nat.add_div_right _ (by omega)]
      have e2 : b.records ++ r :: rs = (b.records ++ [r]) ++ rs := by simp
      have e3 : ∀ j, (j + 1) * M = (b.records ++ [r]).length + j * M := by
        intro j; rw [hlen]; ring
      simp only [recordsLoop, recordStep_full C sh b k r M hM h, List.length_cons, e1,
        List.range_succ_eq_map, List.map_cons, List.map_map]
      refine ⟨?_, ?_, ?_⟩
      · simp only [handled, List.filterMap_cons, List.cons_append, List.nil_append] at i1 ⊢
        rw [i1]
        simp only [Buffer.Flush, Buffer.AddRecord, List.length_nil, Nat.zero_add,
          List.nil_append, Nat.zero_mul, List.drop_zero, e2, List.take_left' hlen,
          List.cons.injEq, true_and]
        apply List.map_congr_left
        intro j _
        simp only [Function.comp, Nat.succ_eq_add_one, e3 j, List.drop_append]
      · simp only [checkpointed, List.filterMap_cons, List.cons_append, List.nil_append]
          at i2 ⊢
        rw [i2]
        have hidx : (b.records ++ [r])[M - 1]? = some r := by
          have : M - 1 = b.records.length := by omega
          rw [this]; simp
        have hlt' : M - 1 < (b.records ++ [r]).length := by omega
        simp only [Buffer.Flush, Buffer.AddRecord, List.length_nil, Nat.zero_add,
          List.nil_append, Nat.zero_mul, e2, List.getElem?_append_left hlt', hidx,
          Option.map_some', Option.getD_some, List.cons.injEq, true_and]
        apply List.map_congr_left
        intro j _
        have hge : (b.records ++ [r]).length ≤ (j + 1) * M + (M - 1) := by
          rw [e3 j]; omega
        have hsub : (j + 1) * M + (M - 1) - (b.records ++ [r]).length = j * M + (M - 1) := by
          rw [e3 j]; omega
        simp only [Function.comp, Nat.succ_eq_add_one, List.getElem?_append_right hge, hsub]
      · rw [i3]
        simp only [Buffer.Flush, Buffer.AddRecord, List.length_nil, Nat.zero_add,
          List.nil_append, e2, e3 (rs.length / M), List.drop_append]

/-! ## Cursor requests and one iteration -/

theorem getShardIterator_cursorEvents {β κ : Type} (K : Kinesis β) (C : Checkpoint κ)
    (stream sh : String) (w : World β κ) :
    ∀ e ∈ (getShardIterator K C stream sh w).events, isCursorEvent e = true := by
  intro e he
  simp only [getShardIterator] at he
  split at he <;> [skip; split at he] <;>
    cases hex : (C.CheckpointExists w.checkpoint sh).1 <;>
    simp [hex] at he <;>
    (rcases he with rfl | rfl | rfl | rfl <;> rfl)

theorem cursorEvents_silent (es : List Effect) (h : ∀ e ∈ es, isCursorEvent e = true) :
    handled es = [] ∧ checkpointed es = [] ∧ ∀ b, bufferAfter b es = b := by
  induction es with
  | nil => simp [handled, checkpointed, bufferAfter]
  | cons e es ih =>
    have he := h e (List.mem_cons_self _ _)
    obtain ⟨i1, i2, i3⟩ := ih (fun x hx => h x (List.mem_cons_of_mem _ hx))
    cases e <;> simp [isCursorEvent] at he <;>
      simp_all [handled, checkpointed, bufferAfter, applyEffect]

theorem nextIterator_cursorEvents {β κ : Type} (K : Kinesis β) (C : Checkpoint κ)
    (stream sh : String) (b : Buffer) (it : Option StrPtr) (resp : Option GetRecordsOutput)
    (w : World β κ) :
    ∀ e ∈ (nextIterator K C stream sh b it resp w).events, isCursorEvent e = true := by
  intro e he
  unfold nextIterator at he
  split at he
  · exact getShardIterator_cursorEvents K C stream sh w e he
  · simp at he

theorem nextIterator_buf {β κ : Type} (K : Kinesis β) (C : Checkpoint κ)
    (stream sh : String) (b : Buffer) (it : Option StrPtr) (resp : Option GetRecordsOutput)
    (w : World β κ) (wk : Worker)
    (h : (nextIterator K C stream sh b it resp w).result = Except.ok wk) : wk.buf = b := by
  unfold nextIterator at h
  split at h
  · simp only at h
    cases hg : (getShardIterator K C stream sh w).result with
    | error x => rw [hg] at h; simp [Except.map] at h
    | ok v => rw [hg] at h; simp [Except.map] at h; rw [← h]
  · simp at h; rw [← h]

theorem iteration_of_poll_ok {β κ : Type} (K : Kinesis β) (C : Checkpoint κ)
    (stream sh : String) (wk : Worker) (w : World β κ) (out : GetRecordsOutput)
    (hpoll : (K.GetRecords w.svc { ShardIterator := wk.shardIterator }).1 = (some out, none)) :
    iteration K C stream sh wk w =
      { nextIterator K C stream sh (recordsLoop C sh (wk.buf, w.checkpoint) out.Records).1.1
          wk.shardIterator (some out)
          { svc := (K.GetRecords w.svc { ShardIterator := wk.shardIterator }).2,
            checkpoint := (recordsLoop C sh (wk.buf, w.checkpoint) out.Records).1.2 } with
        events := [Effect.GetRecords { ShardIterator := wk.shardIterator }] ++
          (recordsLoop C sh (wk.buf, w.checkpoint) out.Records).2 ++
          (nextIterator K C stream sh (recordsLoop C sh (wk.buf, w.checkpoint) out.Records).1.1
            wk.shardIterator (some out)
            { svc := (K.GetRecords w.svc { ShardIterator := wk.shardIterator }).2,
              checkpoint := (recordsLoop C sh (wk.buf, w.checkpoint) out.Records).1.2 }).events } := by
  simp [iteration, hpoll]

theorem iteration_of_poll_error {β κ : Type} (K : Kinesis β) (C : Checkpoint κ)
    (stream sh : String) (wk : Worker) (w : World β κ) (e : String)
    (hpoll : (K.GetRecords w.svc { ShardIterator := wk.shardIterator }).1.2 = some e) :
    iteration K C stream sh wk w =
      { nextIterator K C stream sh wk.buf wk.shardIterator
          (K.GetRecords w.svc { ShardIterator := wk.shardIterator }).1.1
          { svc := (K.GetRecords w.svc { ShardIterator := wk.shardIterator }).2,
            checkpoint := w.checkpoint } with
        events := [Effect.GetRecords { ShardIterator := wk.shardIterator },
          Effect.Log { level := Level.error, msg := "GetRecords",
                       fields := [("shard", FieldVal.str sh), ("error", FieldVal.err e)] }] ++
          (nextIterator K C stream sh wk.buf wk.shardIterator
            (K.GetRecords w.svc { ShardIterator := wk.shardIterator }).1.1
            { svc := (K.GetRecords w.svc { ShardIterator := wk.shardIterator }).2,
              checkpoint := w.checkpoint }).events } := by
  simp [iteration, hpoll]

/-- Claim C2: an iteration of `handlerLoop` that starts with fewer than `M` buffered
records (`M` the buffer's `MaxRecordCount`, at least 1) and whose poll succeeds with the
records `rs` calls the handler once per full block of `M` records of
(buffered ++ `rs`), in order, each time with exactly that block; writes after each block
the sequence number of the block's last record as checkpoint of the shard; and leaves
the records after the last full block, the last `(c0 + n) mod M` ones, in the buffer.
With no records polled the handler is not called and no checkpoint is written. -/
theorem C2_iteration_batches {β κ : Type} (K : Kinesis β) (C : Checkpoint κ)
    (stream sh : String) (M : Nat) (wk : Worker) (w : World β κ) (out : GetRecordsOutput)
    (hM : 1 ≤ M) (hmax : wk.buf.MaxRecordCount = M) (hc0 : wk.buf.records.length < M)
    (hpoll : (K.GetRecords w.svc { ShardIterator := wk.shardIterator }).1 = (some out, none)) :
    handled (iteration K C stream sh wk w).events =
        (List.range ((wk.buf.records.length + out.Records.length) / M)).map
          (fun j => { wk.buf with
            records := ((wk.buf.records ++ out.Records).drop (j * M)).take M }) ∧
    checkpointed (iteration K C stream sh wk w).events =
        (List.range ((wk.buf.records.length + out.Records.length) / M)).map
          (fun j => (sh, (((wk.buf.records ++ out.Records)[j * M + (M - 1)]?).map
            Record.SequenceNumber).getD "")) ∧
    (recordsLoop C sh (wk.buf, w.checkpoint) out.Records).1.1 =
        { wk.buf with
          records := List.drop ((wk.buf.records ++ out.Records).length -
            (wk.buf.records ++ out.Records).length % M) (wk.buf.records ++ out.Records) } ∧
    (∀ wk1, (iteration K C stream sh wk w).result = Except.ok wk1 →
        wk1.buf = (recordsLoop C sh (wk.buf, w.checkpoint) out.Records).1.1) ∧
    (needsNewIterator wk.shardIterator (some out) = false →
        (iteration K C stream sh wk w).result =
          Except.ok { buf := (recordsLoop C sh (wk.buf, w.checkpoint) out.Records).1.1,
                      shardIterator := out.NextShardIterator }) ∧
    (out.Records = [] →
        handled (iteration K C stream sh wk w).events = [] ∧
        checkpointed (iteration K C stream sh wk w).events = []) := by
  have _ := hM
  obtain ⟨i1, i2, i3⟩ := recordsLoop_blocks C sh M out.Records wk.buf w.checkpoint hmax hc0
  have hn := cursorEvents_silent _ (nextIterator_cursorEvents K C stream sh
    (recordsLoop C sh (wk.buf, w.checkpoint) out.Records).1.1 wk.shardIterator (some out)
    { svc := (K.GetRecords w.svc { ShardIterator := wk.shardIterator }).2,
      checkpoint := (recordsLoop C sh (wk.buf, w.checkpoint) out.Records).1.2 })
  have hH : handled (iteration K C stream sh wk w).events =
      handled (recordsLoop C sh (wk.buf, w.checkpoint) out.Records).2 := by
    rw [iteration_of_poll_ok K C stream sh wk w out hpoll]
    have := hn.1
    simp only [handled, List.filterMap_append] at this ⊢
    simp [this]
  have hS : checkpointed (iteration K C stream sh wk w).events =
      checkpointed (recordsLoop C sh (wk.buf, w.checkpoint) out.Records).2 := by
    rw [iteration_of_poll_ok K C stream sh wk w out hpoll]
    have := hn.2.1
    simp only [checkpointed, List.filterMap_append] at this ⊢
    simp [this]
  have hq : (wk.buf.records.length + out.Records.length) / M * M =
      (wk.buf.records ++ out.Records).length -
        (wk.buf.records ++ out.Records).length % M := by
    have := Nat.div_add_mod (wk.buf.records.length + out.Records.length) M
    rw [List.length_append, Nat.mul_comm]
    omega
  refine ⟨hH.trans i1, hS.trans i2, ?_, ?_, ?_, ?_⟩
  · rw [i3, hq]
  · intro wk1 h
    rw [iteration_of_poll_ok K C stream sh wk w out hpoll] at h
    exact nextIterator_buf _ _ _ _ _ _ _ _ _ h
  · intro h
    rw [iteration_of_poll_ok K C stream sh wk w out hpoll]
    simp [nextIterator, h]
  · intro h
    rw [hH, hS, h]
    simp [recordsLoop, handled, checkpointed]

/-- Witness for claim C2: an empty buffer of bound 2 and one poll returning the records
1 to 5. The batches are 1, 2 and then 3, 4, the checkpoints "2" and then "4", and the
record 5 stays buffered. -/
theorem C2_iteration_batches_witness :
    (1 ≤ 2) ∧
    handled (iteration scripted specCheckpoint "stream" "shard-0"
        { buf := emptyBuffer 2, shardIterator := some { addr := 1, val := "it-1" } }
        { svc := { polls := [(some fivePoll, none)], cursors := [] },
          checkpoint := freshStore }).events =
      [{ emptyBuffer 2 with records := [recordOf "1", recordOf "2"] },
       { emptyBuffer 2 with records := [recordOf "3", recordOf "4"] }] ∧
    checkpointed (iteration scripted specCheckpoint "stream" "shard-0"
        { buf := emptyBuffer 2, shardIterator := some { addr := 1, val := "it-1" } }
        { svc := { polls := [(some fivePoll, none)], cursors := [] },
          checkpoint := freshStore }).events =
      [("shard-0", "2"), ("shard-0", "4")] ∧
    (iteration scripted specCheckpoint "stream" "shard-0"
        { buf := emptyBuffer 2, shardIterator := some { addr := 1, val := "it-1" } }
        { svc := { polls := [(some fivePoll, none)], cursors := [] },
          checkpoint := freshStore }).result =
      Except.ok { buf := { emptyBuffer 2 with records := [recordOf "5"] },
                  shardIterator := some { addr := 2, val := "it-2" } } :=
  have h := C2_iteration_batches scripted specCheckpoint "stream" "shard-0" 2
    { buf := emptyBuffer 2, shardIterator := some { addr := 1, val := "it-1" } }
    { svc := { polls := [(some fivePoll, none)], cursors := [] }, checkpoint := freshStore }
    fivePoll (by decide) rfl (by decide) rfl
  ⟨by decide, h.1, h.2.1, h.2.2.2.2.1 rfl⟩

/-! ## Order of the calls of a flush cycle -/

theorem calls_append (l1 l2 : List Effect) : calls (l1 ++ l2) = calls l1 ++ calls l2 := by
  simp [calls]

theorem flushCycles_append (sh : String) (l1 l2 : List Effect) (h1 : FlushCycles sh l1)
    (h2 : FlushCycles sh l2) : FlushCycles sh (l1 ++ l2) := by
  induction h1 with
  | nil => simpa using h2
  | other e t he _ ih => exact FlushCycles.other e _ he ih
  | cycle b t _ ih => exact FlushCycles.cycle b _ ih

theorem flushCycles_of_inert (sh : String) (es : List Effect)
    (h : ∀ e ∈ es, isFlushCall e = false) : FlushCycles sh es := by
  induction es with
  | nil => exact FlushCycles.nil
  | cons e es ih =>
    exact FlushCycles.other e es (h e (List.mem_cons_self _ _))
      (ih (fun x hx => h x (List.mem_cons_of_mem _ hx)))

theorem flushCycles_of_cursorEvents (sh : String) (es : List Effect)
    (h : ∀ e ∈ es, isCursorEvent e = true) : FlushCycles sh (calls es) := by
  apply flushCycles_of_inert
  intro e he
  have hm : e ∈ es := (List.mem_filter.mp he).1
  have := h e hm
  cases e <;> simp [isCursorEvent] at this <;> rfl

theorem flushCycles_recordStep {κ : Type} (C : Checkpoint κ) (sh : String)
    (st : Buffer × κ) (r : Record) : FlushCycles sh (calls (recordStep C sh st r).2) := by
  simp only [recordStep]
  split
  · simp only [calls, List.filter, isLog, Bool.not_false, Bool.not_true]
    exact FlushCycles.other _ _ rfl (FlushCycles.cycle _ _ FlushCycles.nil)
  · simp only [calls, List.filter, isLog, Bool.not_false]
    exact FlushCycles.other _ _ rfl FlushCycles.nil

theorem flushCycles_recordsLoop {κ : Type} (C : Checkpoint κ) (sh : String) :
    ∀ (rs : List Record) (st : Buffer × κ),
      FlushCycles sh (calls (recordsLoop C sh st rs).2) := by
  intro rs
  induction rs with
  | nil => intro st; simpa [recordsLoop, calls] using FlushCycles.nil
  | cons r rs ih =>
    intro st
    simp only [recordsLoop, calls_append]
    exact flushCycles_append sh _ _ (flushCycles_recordStep C sh st r) (ih _)

theorem flushCycles_iteration {β κ : Type} (K : Kinesis β) (C : Checkpoint κ)
    (stream sh : String) (wk : Worker) (w : World β κ) :
    FlushCycles sh (calls (iteration K C stream sh wk w).events) := by
  have h1 : FlushCycles sh [Effect.GetRecords { ShardIterator := wk.shardIterator }] :=
    FlushCycles.other _ _ rfl FlushCycles.nil
  simp only [iteration]
  split
  · simp only [calls_append]
    refine flushCycles_append sh _ _ ?_
      (flushCycles_of_cursorEvents sh _ (nextIterator_cursorEvents _ _ _ _ _ _ _ _))
    simpa [calls, isLog] using h1
  · split
    · simpa [calls, isLog] using h1
    · simp only [calls_append]
      refine flushCycles_append sh _ _ (flushCycles_append sh _ _ ?_
        (flushCycles_recordsLoop C sh _ _))
        (flushCycles_of_cursorEvents sh _ (nextIterator_cursorEvents _ _ _ _ _ _ _ _))
      simpa [calls, isLog] using h1

theorem flushCycles_loop {β κ : Type} (K : Kinesis β) (C : Checkpoint κ)
    (stream sh : String) :
    ∀ (n : Nat) (wk : Worker) (w : World β κ),
      FlushCycles sh (calls (loop K C stream sh n wk w).events) := by
  intro n
  induction n with
  | zero => intro wk w; simpa [loop, calls] using FlushCycles.nil
  | succ n ih =>
    intro wk w
    simp only [loop]
    split
    · exact flushCycles_iteration K C stream sh wk w
    · simp only [calls_append]
      exact flushCycles_append sh _ _ (flushCycles_iteration K C stream sh wk w) (ih _ _)

theorem flushCycles_handlerLoop {β κ Λ : Type} (K : Kinesis β) (C : Checkpoint κ)
    (c : Config κ Λ) (sh : String) (n : Nat) (w : World β κ) :
    FlushCycles sh (calls (handlerLoop K C c sh n w).events) := by
  have hg := flushCycles_of_cursorEvents sh _
    (getShardIterator_cursorEvents K C c.StreamName sh w)
  simp only [handlerLoop]
  split
  · simpa [calls, isLog] using hg
  · have hl := flushCycles_loop K C c.StreamName sh n
    simp only [calls, isLog, List.filter_cons, Bool.not_true, List.filter_append] at hg ⊢
    exact flushCycles_append sh _ _ hg (hl _ _)

theorem flushCycles_adjacent (sh : String) (es : List Effect) (h : FlushCycles sh es) :
    (∀ i p q, es[i]? = some (Effect.SetCheckpoint p q) →
      ∃ b, 1 ≤ i ∧ es[i - 1]? = some (Effect.HandleRecords b) ∧ p = sh ∧ q = b.LastSeq ∧
        es[i + 1]? = some Effect.Flush) ∧
    (∀ i b, es[i]? = some (Effect.HandleRecords b) →
      es[i + 1]? = some (Effect.SetCheckpoint sh b.LastSeq) ∧
        es[i + 2]? = some Effect.Flush) := by
  induction h with
  | nil => simp
  | other e t he _ ih =>
    constructor
    · intro i p q hi
      cases i with
      | zero =>
        simp at hi; subst hi; simp [isFlushCall] at he
      | succ j =>
        simp only [List.getElem?_cons_succ] at hi
        obtain ⟨b, hj, h1, h2, h3, h4⟩ := ih.1 j p q hi
        obtain ⟨j', rfl⟩ : ∃ j', j = j' + 1 := ⟨j - 1, by omega⟩
        exact ⟨b, by omega, by simpa using h1, h2, h3, by simpa using h4⟩
    · intro i b hi
      cases i with
      | zero =>
        simp at hi; subst hi; simp [isFlushCall] at he
      | succ j =>
        simp only [List.getElem?_cons_succ] at hi
        obtain ⟨h1, h2⟩ := ih.2 j b hi
        exact ⟨by simpa using h1, by simpa using h2⟩
  | cycle b t _ ih =>
    constructor
    · intro i p q hi
      match i, hi with
      | 0, hi => simp at hi
      | 1, hi =>
        simp at hi
        exact ⟨b, by omega, by simp, hi.1.symm, hi.2.symm, by simp⟩
      | 2, hi => simp at hi
      | j + 3, hi =>
        simp only [List.getElem?_cons_succ] at hi
        obtain ⟨b', hj, h1, h2, h3, h4⟩ := ih.1 j p q hi
        obtain ⟨j', rfl⟩ : ∃ j', j = j' + 1 := ⟨j - 1, by omega⟩
        exact ⟨b', by omega, by simpa using h1, h2, h3, by simpa using h4⟩
    · intro i b' hi
      match i, hi with
      | 0, hi =>
        simp at hi; subst hi; simp
      | 1, hi => simp at hi
      | 2, hi => simp at hi
      | j + 3, hi =>
        simp only [List.getElem?_cons_succ] at hi
        obtain ⟨h1, h2⟩ := ih.2 j b' hi
        exact ⟨by simpa using h1, by simpa using h2⟩

/-- Claim C1: in every run of `handlerLoop`, on every shard and against every backend
and checkpoint object, a flush cycle is the handler call on the buffer, then the write
of that buffer's last sequence number as the shard's checkpoint, then the clearing of
the buffer (with one log entry `flushed` after the handler call, which `calls` leaves
out). In the calls of the run every checkpoint write comes right after the handler call
on the batch whose last sequence number it writes and right before the clearing of the
buffer, and every handler call is followed by exactly these two calls. -/
theorem C1_flush_cycle_order {β κ Λ : Type} (K : Kinesis β) (C : Checkpoint κ)
    (c : Config κ Λ) (sh : String) (n : Nat) (w : World β κ) :
    (∀ (st : Buffer × κ) (r : Record), (st.1.AddRecord r).ShouldFlush = true →
      (recordStep C sh st r).2 =
        [Effect.AddRecord r,
         Effect.HandleRecords (st.1.AddRecord r),
         Effect.Log { level := Level.info, msg := "flushed",
                      fields := [("shard", FieldVal.str sh),
                                 ("count", FieldVal.int (st.1.AddRecord r).RecordCount)] },
         Effect.SetCheckpoint sh (st.1.AddRecord r).LastSeq,
         Effect.Flush] ∧
      (recordStep C sh st r).1.1 = (st.1.AddRecord r).Flush) ∧
    (∀ (st : Buffer × κ) (r : Record), (st.1.AddRecord r).ShouldFlush = false →
      (recordStep C sh st r).2 = [Effect.AddRecord r]) ∧
    (∀ i p q, (calls (handlerLoop K C c sh n w).events)[i]? = some (Effect.SetCheckpoint p q) →
      ∃ b, 1 ≤ i ∧
        (calls (handlerLoop K C c sh n w).events)[i - 1]? = some (Effect.HandleRecords b) ∧
        p = sh ∧ q = b.LastSeq ∧
        (calls (handlerLoop K C c sh n w).events)[i + 1]? = some Effect.Flush) ∧
    (∀ i b, (calls (handlerLoop K C c sh n w).events)[i]? = some (Effect.HandleRecords b) →
      (calls (handlerLoop K C c sh n w).events)[i + 1]? =
          some (Effect.SetCheckpoint sh b.LastSeq) ∧
        (calls (handlerLoop K C c sh n w).events)[i + 2]? = some Effect.Flush) := by
  have h := flushCycles_adjacent sh _ (flushCycles_handlerLoop K C c sh n w)
  refine ⟨?_, ?_, h.1, h.2⟩
  · intro st r hf
    simp [recordStep, hf]
  · intro st r hf
    simp [recordStep, hf]

/-! ## The buffer bound -/

theorem bufferAfter_append (b : List Record) (l1 l2 : List Effect) :
    bufferAfter b (l1 ++ l2) = bufferAfter (bufferAfter b l1) l2 := by
  simp [bufferAfter, List.foldl_append]

theorem boundedAlong_le (M : Nat) (b : List Record) (es : List Effect)
    (h : boundedAlong M b es) : b.length ≤ M := by
  cases es with
  | nil => exact h
  | cons e t => exact h.1

theorem boundedAlong_append (M : Nat) (l1 l2 : List Effect) :
    ∀ b : List Record, boundedAlong M b (l1 ++ l2) ↔
      boundedAlong M b l1 ∧ boundedAlong M (bufferAfter b l1) l2 := by
  induction l1 with
  | nil =>
    intro b
    simp only [List.nil_append, boundedAlong, bufferAfter, List.foldl_nil]
    exact ⟨fun h => ⟨boundedAlong_le M b l2 h, h⟩, fun h => h.2⟩
  | cons e t ih =>
    intro b
    have ih1 := ih (applyEffect b e)
    show (b.length ≤ M ∧ (isAppendOrPoll e = true → b.length < M) ∧
        boundedAlong M (applyEffect b e) (t ++ l2)) ↔
      (b.length ≤ M ∧ (isAppendOrPoll e = true → b.length < M) ∧
        boundedAlong M (applyEffect b e) t) ∧
      boundedAlong M (bufferAfter (applyEffect b e) t) l2
    rw [ih1]
    tauto

theorem boundedAlong_split (M : Nat) (pre post : List Effect) (b : List Record)
    (h : boundedAlong M b (pre ++ post)) :
    (bufferAfter b pre).length ≤ M ∧
      ∀ e t, post = e :: t → isAppendOrPoll e = true → (bufferAfter b pre).length < M := by
  have h2 := ((boundedAlong_append M pre post b).mp h).2
  refine ⟨boundedAlong_le M _ _ h2, ?_⟩
  intro e t hp he
  subst hp
  exact h2.2.1 he

theorem bounded_of_cursorEvents (M : Nat) (es : List Effect)
    (h : ∀ e ∈ es, isCursorEvent e = true) :
    ∀ b : List Record, b.length ≤ M → boundedAlong M b es := by
  induction es with
  | nil => intro b hb; exact hb
  | cons e es ih =>
    intro b hb
    have he := h e (List.mem_cons_self _ _)
    have := ih (fun x hx => h x (List.mem_cons_of_mem _ hx)) b hb
    cases e <;> simp [isCursorEvent] at he <;>
      simp [boundedAlong, isAppendOrPoll, applyEffect, hb, this]

theorem bounded_recordStep {κ : Type} (C : Checkpoint κ) (sh : String) (M : Nat)
    (b : Buffer) (k : κ) (r : Record) (hM : b.MaxRecordCount = M)
    (hlt : b.records.length < M) :
    boundedAlong M b.records (recordStep C sh (b, k) r).2 ∧
    bufferAfter b.records (recordStep C sh (b, k) r).2 =
      (recordStep C sh (b, k) r).1.1.records ∧
    (recordStep C sh (b, k) r).1.1.records.length < M ∧
    (recordStep C sh (b, k) r).1.1.MaxRecordCount = M := by
  rcases Nat.lt_or_ge (b.records.length + 1) M with h | h
  · rw [recordStep_below C sh b k r M hM h]
    simp [boundedAlong, isAppendOrPoll, applyEffect, bufferAfter, Buffer.AddRecord, hM]
    omega
  · rw [recordStep_full C sh b k r M hM h]
    simp [boundedAlong, isAppendOrPoll, applyEffect, bufferAfter, Buffer.AddRecord,
      Buffer.Flush, hM]
    omega

theorem bounded_recordsLoop {κ : Type} (C : Checkpoint κ) (sh : String) (M : Nat) :
    ∀ (rs : List Record) (b : Buffer) (k : κ), b.MaxRecordCount = M →
      b.records.length < M →
      boundedAlong M b.records (recordsLoop C sh (b, k) rs).2 ∧
      bufferAfter b.records (recordsLoop C sh (b, k) rs).2 =
        (recordsLoop C sh (b, k) rs).1.1.records ∧
      (recordsLoop C sh (b, k) rs).1.1.records.length < M ∧
      (recordsLoop C sh (b, k) rs).1.1.MaxRecordCount = M := by
  intro rs
  induction rs with
  | nil =>
    intro b k hM hlt
    simp only [recordsLoop]
    exact ⟨by show b.records.length ≤ M; omega, rfl, hlt, hM⟩
  | cons r rs ih =>
    intro b k hM hlt
    obtain ⟨s1, s2, s3, s4⟩ := bounded_recordStep C sh M b k r hM hlt
    obtain ⟨i1, i2, i3, i4⟩ := ih (recordStep C sh (b, k) r).1.1 (recordStep C sh (b, k) r).1.2
      s4 s3
    simp only [recordsLoop, boundedAlong_append, bufferAfter_append, s2]
    exact ⟨⟨s1, i1⟩, i2, i3, i4⟩

theorem bounded_iteration {β κ : Type} (K : Kinesis β) (C : Checkpoint κ)
    (stream sh : String) (M : Nat) (wk : Worker) (w : World β κ)
    (hM : wk.buf.MaxRecordCount = M) (hlt : wk.buf.records.length < M) :
    boundedAlong M wk.buf.records (iteration K C stream sh wk w).events ∧
    ∀ wk1, (iteration K C stream sh wk w).result = Except.ok wk1 →
      wk1.buf.records = bufferAfter wk.buf.records (iteration K C stream sh wk w).events ∧
      wk1.buf.records.length < M ∧ wk1.buf.MaxRecordCount = M := by
  have hle : wk.buf.records.length ≤ M := by omega
  simp only [iteration]
  split
  · have hc := nextIterator_cursorEvents K C stream sh wk.buf wk.shardIterator
      (K.GetRecords w.svc { ShardIterator := wk.shardIterator }).1.1
      { svc := (K.GetRecords w.svc { ShardIterator := wk.shardIterator }).2,
        checkpoint := w.checkpoint }
    have hb := bounded_of_cursorEvents M _ hc wk.buf.records hle
    have hs := (cursorEvents_silent _ hc).2.2 wk.buf.records
    refine ⟨?_, ?_⟩
    · rw [boundedAlong_append]
      exact ⟨⟨hle, fun _ => hlt, hle, by simp [isAppendOrPoll], hle⟩, hb⟩
    · intro wk1 h1
      have := nextIterator_buf _ _ _ _ _ _ _ _ _ h1
      rw [bufferAfter_append, this]
      exact ⟨hs.symm, hlt, hM⟩
  · split
    · exact ⟨⟨hle, fun _ => hlt, hle⟩, fun wk1 h1 => by simp at h1⟩
    · rename_i out _
      obtain ⟨l1, l2, l3, l4⟩ :=
        bounded_recordsLoop C sh M out.Records wk.buf w.checkpoint hM hlt
      have hc := nextIterator_cursorEvents K C stream sh
        (recordsLoop C sh (wk.buf, w.checkpoint) out.Records).1.1 wk.shardIterator
        (K.GetRecords w.svc { ShardIterator := wk.shardIterator }).1.1
        { svc := (K.GetRecords w.svc { ShardIterator := wk.shardIterator }).2,
          checkpoint := (recordsLoop C sh (wk.buf, w.checkpoint) out.Records).1.2 }
      have hb := bounded_of_cursorEvents M _ hc
        (recordsLoop C sh (wk.buf, w.checkpoint) out.Records).1.1.records (by omega)
      have hs := (cursorEvents_silent _ hc).2.2
        (recordsLoop C sh (wk.buf, w.checkpoint) out.Records).1.1.records
      have e0 : bufferAfter wk.buf.records
          [Effect.GetRecords { ShardIterator := wk.shardIterator }] = wk.buf.records := rfl
      refine ⟨?_, ?_⟩
      · rw [boundedAlong_append, boundedAlong_append, bufferAfter_append, e0, l2]
        exact ⟨⟨⟨hle, fun _ => hlt, hle⟩, l1⟩, hb⟩
      · intro wk1 h1
        have := nextIterator_buf _ _ _ _ _ _ _ _ _ h1
        rw [bufferAfter_append, bufferAfter_append, e0, l2, hs, this]
        exact ⟨rfl, l3, l4⟩

theorem bounded_loop {β κ : Type} (K : Kinesis β) (C : Checkpoint κ)
    (stream sh : String) (M : Nat) :
    ∀ (n : Nat) (wk : Worker) (w : World β κ), wk.buf.MaxRecordCount = M →
      wk.buf.records.length < M →
      boundedAlong M wk.buf.records (loop K C stream sh n wk w).events ∧
      ∀ wk1, (loop K C stream sh n wk w).result = Except.ok wk1 →
        wk1.buf.records = bufferAfter wk.buf.records (loop K C stream sh n wk w).events ∧
        wk1.buf.records.length < M := by
  intro n
  induction n with
  | zero =>
    intro wk w _ hlt
    simp only [loop]
    refine ⟨by show wk.buf.records.length ≤ M; omega, ?_⟩
    intro wk1 h1
    simp at h1
    subst h1
    exact ⟨rfl, hlt⟩
  | succ n ih =>
    intro wk w hM hlt
    obtain ⟨b1, b2⟩ := bounded_iteration K C stream sh M wk w hM hlt
    simp only [loop]
    split
    · rename_i h hres
      exact ⟨b1, fun wk1 h1 => by simp at h1⟩
    · rename_i wk2 hres
      obtain ⟨c1, c2, c3⟩ := b2 wk2 hres
      obtain ⟨i1, i2⟩ := ih wk2 (iteration K C stream sh wk w).world c3 c2
      refine ⟨?_, ?_⟩
      · rw [boundedAlong_append, ← c1]
        exact ⟨b1, i1⟩
      · intro wk1 h1
        rw [bufferAfter_append, ← c1]
        exact i2 wk1 h1

theorem bounded_handlerLoop {β κ Λ : Type} (K : Kinesis β) (C : Checkpoint κ)
    (c : Config κ Λ) (sh : String) (n : Nat) (w : World β κ) (M : Nat) (hM : 1 ≤ M)
    (hc : c.BufferSize = M) :
    boundedAlong M [] (handlerLoop K C c sh n w).events ∧
    ∀ wk1, (handlerLoop K C c sh n w).result = Except.ok wk1 →
      wk1.buf.records = bufferAfter [] (handlerLoop K C c sh n w).events ∧
      wk1.buf.records.length < M := by
  have hcur := getShardIterator_cursorEvents K C c.StreamName sh w
  have hb := bounded_of_cursorEvents M _ hcur [] (by simp)
  have hs := (cursorEvents_silent _ hcur).2.2 []
  simp only [handlerLoop]
  split
  · refine ⟨⟨by simp, by simp [isAppendOrPoll], hb⟩, fun wk1 h1 => by simp at h1⟩
  · rename_i it hres
    obtain ⟨l1, l2⟩ := bounded_loop K C c.StreamName sh M n
      { buf := { records := [], MaxRecordCount := c.BufferSize, shardID := sh },
        shardIterator := it } (getShardIterator K C c.StreamName sh w).world hc
      (by show 0 < M; omega)
    refine ⟨⟨by simp, by simp [isAppendOrPoll], ?_⟩, ?_⟩
    · show boundedAlong M [] (_ ++ _)
      rw [boundedAlong_append, hs]
      exact ⟨hb, l1⟩
    · intro wk1 h1
      have e : ∀ (l : LogEntry) (t : List Effect),
          bufferAfter [] (Effect.Log l :: t) = bufferAfter [] t := fun _ _ => rfl
      rw [e, bufferAfter_append, hs]
      exact l2 wk1 h1

/-- Claim C9: with `BufferSize` `M` at least 1, in every run of `handlerLoop` (any
backend, any checkpoint object, any number of iterations) the buffer, empty at the
start, never holds more than `M` records; it holds fewer than `M` whenever a record is
appended (so at most `M` right after the append) and whenever the backend is polled,
and fewer than `M` at the end of the run; and a per-record step that starts below `M`
has at most `M` records after its append and fewer than `M` at its end. -/
theorem C9_buffer_bound {β κ Λ : Type} (K : Kinesis β) (C : Checkpoint κ)
    (c : Config κ Λ) (sh : String) (n : Nat) (w : World β κ) (M : Nat) (hM : 1 ≤ M)
    (hc : c.BufferSize = M) :
    (∀ pre post, (handlerLoop K C c sh n w).events = pre ++ post →
      (bufferAfter [] pre).length ≤ M ∧
      (∀ r t, post = Effect.AddRecord r :: t →
        (bufferAfter [] pre).length < M ∧
        (bufferAfter [] (pre ++ [Effect.AddRecord r])).length ≤ M) ∧
      (∀ i t, post = Effect.GetRecords i :: t → (bufferAfter [] pre).length < M)) ∧
    (∀ wk1, (handlerLoop K C c sh n w).result = Except.ok wk1 →
      wk1.buf.records = bufferAfter [] (handlerLoop K C c sh n w).events ∧
      wk1.buf.records.length < M) ∧
    (∀ (b : Buffer) (k : κ) (r : Record), b.MaxRecordCount = M → b.records.length < M →
      (b.AddRecord r).records.length ≤ M ∧
      (recordStep C sh (b, k) r).1.1.records.length < M) := by
  obtain ⟨h1, h2⟩ := bounded_handlerLoop K C c sh n w M hM hc
  refine ⟨?_, h2, ?_⟩
  · intro pre post hsplit
    rw [hsplit] at h1
    obtain ⟨s1, s2⟩ := boundedAlong_split M pre post [] h1
    refine ⟨s1, ?_, ?_⟩
    · intro r t hp
      have hlt := s2 _ _ hp rfl
      refine ⟨hlt, ?_⟩
      rw [bufferAfter_append]
      show ((bufferAfter [] pre) ++ [r]).length ≤ M
      simp
      omega
    · intro i t hp
      exact s2 _ _ hp rfl
  · intro b k r hb hlt
    refine ⟨?_, (bounded_recordStep C sh M b k r hb hlt).2.2.1⟩
    simp [Buffer.AddRecord]
    omega

/-- Witness for claim C9: batch size 2 on the backend that answers one poll with the
records 1 to 5; after one iteration the buffer holds one record. -/
theorem C9_buffer_bound_witness :
    (1 ≤ 2) ∧ config2.BufferSize = ((2 : Nat) : Int) ∧
    ∃ wk1, (handlerLoop scripted specCheckpoint config2 "shard-0" 1
        { svc := fiveBackend, checkpoint := freshStore }).result = Except.ok wk1 ∧
      wk1.buf.records = [recordOf "5"] ∧ wk1.buf.records.length < 2 :=
  ⟨by decide, rfl, _, rfl, rfl,
    ((C9_buffer_bound scripted specCheckpoint config2 "shard-0" 1
      { svc := fiveBackend, checkpoint := freshStore } 2 (by decide) rfl).2.1 _ rfl).2⟩

/-! ## Cursor requests -/

theorem cursorRequests_getShardIterator {β κ : Type} (K : Kinesis β) (C : Checkpoint κ)
    (stream sh : String) (w : World β κ) :
    cursorRequests (getShardIterator K C stream sh w).events =
      [if (C.CheckpointExists w.checkpoint sh).1 = true then
          { ShardId := some sh, StreamName := some stream,
            ShardIteratorType := some "AFTER_SEQUENCE_NUMBER",
            StartingSequenceNumber :=
              some (C.SequenceNumber (C.CheckpointExists w.checkpoint sh).2).1 }
        else
          { ShardId := some sh, StreamName := some stream,
            ShardIteratorType := some "TRIM_HORIZON",
            StartingSequenceNumber := none }] := by
  simp only [getShardIterator]
  split <;> [skip; split] <;>
    cases hex : (C.CheckpointExists w.checkpoint sh).1 <;>
    simp [hex, cursorRequests]

theorem last_setCheckpoint_same (st : CheckpointStore) (p s : String)
    (h : st.failing = false) : (specCheckpoint.SetCheckpoint st p s).2.last p = some s := by
  simp [specCheckpoint, h, CheckpointStore.last, List.lookup]

theorem last_setCheckpoint_other (st : CheckpointStore) (p q s : String) (h : q ≠ p) :
    (specCheckpoint.SetCheckpoint st q s).2.last p = st.last p := by
  simp only [specCheckpoint]
  split
  · rfl
  · have : (p == q) = false := by simpa using fun e => h e.symm
    simp [CheckpointStore.last, List.lookup, this]

theorem last_writes_other (p : String) (others : List (String × String))
    (h : ∀ x ∈ others, x.1 ≠ p) :
    ∀ st : CheckpointStore,
      (others.foldl (fun acc x => (specCheckpoint.SetCheckpoint acc x.1 x.2).2) st).last p =
        st.last p := by
  induction others with
  | nil => intro st; rfl
  | cons x xs ih =>
    intro st
    simp only [List.foldl_cons]
    rw [ih (fun y hy => h y (List.mem_cons_of_mem _ hy))]
    exact last_setCheckpoint_other st p x.1 x.2 (h x (List.mem_cons_self _ _))

/-- Claim C3: against the checkpoint store of section 4.2, `getShardIterator(p)` sends
exactly one cursor request, for shard `p` of the configured stream: of type
`TRIM_HORIZON` without a starting sequence number when the store holds no checkpoint
for `p`, and of type `AFTER_SEQUENCE_NUMBER` with the stored sequence as starting
sequence number when it holds one; in particular after a successful
`SetCheckpoint(p, s)`, whatever was stored before and whatever is written for other
shards afterwards. -/
theorem C3_cursor_request_follows_checkpoint {β : Type} (K : Kinesis β)
    (stream p : String) (svc : β) (st : CheckpointStore) :
    (st.last p = none →
      cursorRequests (getShardIterator K specCheckpoint stream p
          { svc := svc, checkpoint := st }).events =
        [{ ShardId := some p, StreamName := some stream,
           ShardIteratorType := some "TRIM_HORIZON", StartingSequenceNumber := none }]) ∧
    (∀ s, st.last p = some s →
      cursorRequests (getShardIterator K specCheckpoint stream p
          { svc := svc, checkpoint := st }).events =
        [{ ShardId := some p, StreamName := some stream,
           ShardIteratorType := some "AFTER_SEQUENCE_NUMBER",
           StartingSequenceNumber := some s }]) ∧
    (∀ (s : String) (others : List (String × String)), st.failing = false →
      (∀ x ∈ others, x.1 ≠ p) →
      cursorRequests (getShardIterator K specCheckpoint stream p
          { svc := svc,
            checkpoint := others.foldl
              (fun acc x => (specCheckpoint.SetCheckpoint acc x.1 x.2).2)
              (specCheckpoint.SetCheckpoint st p s).2 }).events =
        [{ ShardId := some p, StreamName := some stream,
           ShardIteratorType := some "AFTER_SEQUENCE_NUMBER",
           StartingSequenceNumber := some s }]) := by
  have key : ∀ (t : CheckpointStore) (s : String), t.last p = some s →
      cursorRequests (getShardIterator K specCheckpoint stream p
          { svc := svc, checkpoint := t }).events =
        [{ ShardId := some p, StreamName := some stream,
           ShardIteratorType := some "AFTER_SEQUENCE_NUMBER",
           StartingSequenceNumber := some s }] := by
    intro t s h
    rw [cursorRequests_getShardIterator]
    simp [specCheckpoint, h, CheckpointStore.last] at *
    simp [h]
  refine ⟨?_, key st, ?_⟩
  · intro h
    rw [cursorRequests_getShardIterator]
    simp [specCheckpoint, h]
  · intro s others hf ho
    apply key
    rw [last_writes_other p others ho]
    exact last_setCheckpoint_same st p s hf

/-- Example for claim C3: after `SetCheckpoint("shard-0", "42")`, with a checkpoint
"99" written for another shard, the request for `shard-0` is `AFTER_SEQUENCE_NUMBER`
"42". -/
theorem C3_cursor_request_follows_checkpoint_witness :
    cursorRequests (getShardIterator scripted specCheckpoint "stream" "shard-0"
        { svc := oneCursor,
          checkpoint := (specCheckpoint.SetCheckpoint
            (specCheckpoint.SetCheckpoint freshStore "shard-0" "42").2 "shard-1" "99").2 }).events =
      [{ ShardId := some "shard-0", StreamName := some "stream",
         ShardIteratorType := some "AFTER_SEQUENCE_NUMBER",
         StartingSequenceNumber := some "42" }] :=
  (C3_cursor_request_follows_checkpoint scripted "stream" "shard-0" oneCursor freshStore).2.2
    "42" [("shard-1", "99")] rfl (by decide)

/-! ## Choosing the next iterator -/

theorem cursorRequests_recordsLoop {κ : Type} (C : Checkpoint κ) (sh : String) :
    ∀ (rs : List Record) (st : Buffer × κ),
      cursorRequests (recordsLoop C sh st rs).2 = [] := by
  intro rs
  induction rs with
  | nil => intro st; rfl
  | cons r rs ih =>
    intro st
    simp only [recordsLoop, cursorRequests, List.filterMap_append] at ih ⊢
    rw [ih]
    simp only [recordStep]
    split <;> rfl

/-- Claim C4 (what the code does): after a successful poll the worker compares the
pointer it used with the pointer the backend returned, not the tokens. When the backend
returns the same token in another string, the worker makes no cursor request and keeps
that token for the next poll. -/
theorem C4_same_token_other_pointer_reused {β κ : Type} (K : Kinesis β)
    (C : Checkpoint κ) (stream sh : String) (wk : Worker) (w : World β κ)
    (out : GetRecordsOutput) (p q : StrPtr)
    (hpoll : (K.GetRecords w.svc { ShardIterator := wk.shardIterator }).1 = (some out, none))
    (hused : wk.shardIterator = some p) (hnext : out.NextShardIterator = some q)
    (htoken : q.val = p.val) (haddr : q.addr ≠ p.addr) :
    cursorRequests (iteration K C stream sh wk w).events = [] ∧
    ∃ wk1, (iteration K C stream sh wk w).result = Except.ok wk1 ∧
      wk1.shardIterator = some q ∧
      wk1.shardIterator.map StrPtr.val = wk.shardIterator.map StrPtr.val := by
  have hn : needsNewIterator wk.shardIterator (some out) = false := by
    have : ¬ p.addr = q.addr := fun e => haddr e.symm
    simp [needsNewIterator, hused, hnext, ptrEq, this]
  rw [iteration_of_poll_ok K C stream sh wk w out hpoll]
  refine ⟨?_, ?_⟩
  · have := cursorRequests_recordsLoop C sh out.Records (wk.buf, w.checkpoint)
    simp only [cursorRequests, List.filterMap_append] at this ⊢
    simp [this, nextIterator, hn]
  · refine ⟨{ buf := (recordsLoop C sh (wk.buf, w.checkpoint) out.Records).1.1,
                shardIterator := some q }, ?_, rfl, ?_⟩
    · simp [nextIterator, hn, hnext]
    · simp [hused, htoken]

/-- The failing input of claim C4: the iterator in use is the token `A` at address 1,
the poll succeeds and returns the token `A` at address 2. No cursor request is made and
the next iteration polls with the token `A` again, although a cursor request would have
returned the token `B`. -/
theorem C4_same_token_other_pointer_reused_witness :
    ((scripted.GetRecords stalledBackend { ShardIterator := workerA.shardIterator }).1 =
      (some { Records := [], NextShardIterator := some { addr := 2, val := "A" } }, none)) ∧
    cursorRequests (iteration scripted specCheckpoint "stream" "shard-0" workerA
        { svc := stalledBackend, checkpoint := freshStore }).events = [] ∧
    ∃ wk1, (iteration scripted specCheckpoint "stream" "shard-0" workerA
        { svc := stalledBackend, checkpoint := freshStore }).result = Except.ok wk1 ∧
      wk1.shardIterator = some { addr := 2, val := "A" } ∧
      wk1.shardIterator.map StrPtr.val = workerA.shardIterator.map StrPtr.val :=
  ⟨rfl, C4_same_token_other_pointer_reused scripted specCheckpoint "stream" "shard-0" workerA
    { svc := stalledBackend, checkpoint := freshStore }
    { Records := [], NextShardIterator := some { addr := 2, val := "A" } }
    { addr := 1, val := "A" } { addr := 2, val := "A" } rfl rfl rfl rfl (by decide)⟩

/-! ## A failed poll -/

/-- Claim C5 as the code has it: an iteration whose poll returns an error hands nothing
to the handler, writes no checkpoint and leaves the buffer as it was; it then chooses
the next iterator by the same rule as after a successful poll. When the response is nil
or carries no next iterator (or the pointer just used) the worker calls
`getShardIterator`, which sends one cursor request, and continues with the iterator
obtained (or stops if that call fails); otherwise it sends no cursor request and
continues with the response's next iterator. -/
theorem C5_poll_error_rederives_cursor {β κ : Type} (K : Kinesis β) (C : Checkpoint κ)
    (stream sh : String) (wk : Worker) (w : World β κ) (e : String)
    (hpoll : (K.GetRecords w.svc { ShardIterator := wk.shardIterator }).1.2 = some e) :
    handled (iteration K C stream sh wk w).events = [] ∧
    checkpointed (iteration K C stream sh wk w).events = [] ∧
    (∀ b, bufferAfter b (iteration K C stream sh wk w).events = b) ∧
    (∀ wk1, (iteration K C stream sh wk w).result = Except.ok wk1 → wk1.buf = wk.buf) ∧
    (needsNewIterator wk.shardIterator
        (K.GetRecords w.svc { ShardIterator := wk.shardIterator }).1.1 = true →
      (iteration K C stream sh wk w).events =
        [Effect.GetRecords { ShardIterator := wk.shardIterator },
         Effect.Log { level := Level.error, msg := "GetRecords",
                      fields := [("shard", FieldVal.str sh), ("error", FieldVal.err e)] }] ++
        (getShardIterator K C stream sh
          { svc := (K.GetRecords w.svc { ShardIterator := wk.shardIterator }).2,
            checkpoint := w.checkpoint }).events ∧
      (∃ q, cursorRequests (iteration K C stream sh wk w).events = [q]) ∧
      (iteration K C stream sh wk w).result =
        (getShardIterator K C stream sh
          { svc := (K.GetRecords w.svc { ShardIterator := wk.shardIterator }).2,
            checkpoint := w.checkpoint }).result.map
          (fun it => { buf := wk.buf, shardIterator := it })) ∧
    (needsNewIterator wk.shardIterator
        (K.GetRecords w.svc { ShardIterator := wk.shardIterator }).1.1 = false →
      cursorRequests (iteration K C stream sh wk w).events = [] ∧
      (iteration K C stream sh wk w).result =
        Except.ok { buf := wk.buf,
                    shardIterator :=
                      (K.GetRecords w.svc { ShardIterator := wk.shardIterator }).1.1.bind
                        (fun o => o.NextShardIterator) }) := by
  have hc := nextIterator_cursorEvents K C stream sh wk.buf wk.shardIterator
    (K.GetRecords w.svc { ShardIterator := wk.shardIterator }).1.1
    { svc := (K.GetRecords w.svc { ShardIterator := wk.shardIterator }).2,
      checkpoint := w.checkpoint }
  obtain ⟨s1, s2, s3⟩ := cursorEvents_silent _ hc
  rw [iteration_of_poll_error K C stream sh wk w e hpoll]
  refine ⟨?_, ?_, ?_, ?_, ?_, ?_⟩
  · simp only [handled, List.filterMap_append] at s1 ⊢
    simp [s1]
  · simp only [checkpointed, List.filterMap_append] at s2 ⊢
    simp [s2]
  · intro b
    rw [bufferAfter_append, s3]
    rfl
  · intro wk1 h
    exact nextIterator_buf _ _ _ _ _ _ _ _ _ h
  · intro hn
    refine ⟨by simp [nextIterator, hn], ?_, by simp [nextIterator, hn]⟩
    have := cursorRequests_getShardIterator K C stream sh
      { svc := (K.GetRecords w.svc { ShardIterator := wk.shardIterator }).2,
        checkpoint := w.checkpoint }
    simp only [cursorRequests, List.filterMap_append] at this ⊢
    simp [nextIterator, hn, this]
  · intro hn
    simp [nextIterator, hn, cursorRequests]

/-- Witness for claim C5 as the code has it: a poll that fails with a nil response. -/
theorem C5_poll_error_rederives_cursor_witness :
    ((scripted.GetRecords failingPollBackend
        { ShardIterator := workerA.shardIterator }).1.2 =
      some "ProvisionedThroughputExceededException") ∧
    handled (iteration scripted specCheckpoint "stream" "shard-0" workerA
        { svc := failingPollBackend, checkpoint := freshStore }).events = [] ∧
    checkpointed (iteration scripted specCheckpoint "stream" "shard-0" workerA
        { svc := failingPollBackend, checkpoint := freshStore }).events = [] :=
  have h := C5_poll_error_rederives_cursor scripted specCheckpoint "stream" "shard-0" workerA
    { svc := failingPollBackend, checkpoint := freshStore }
    "ProvisionedThroughputExceededException" rfl
  ⟨rfl, h.1, h.2.1⟩

/-- Counterexample to claim C5: the worker polls with the token `A`, the poll fails with
a nil response; the worker sends a cursor request (`TRIM_HORIZON`, no checkpoint being
stored) and starts the next iteration with the iterator `B` it got, not with `A`. -/
theorem C5_poll_error_new_cursor_request :
    (scripted.GetRecords failingPollBackend { ShardIterator := workerA.shardIterator }).1 =
      (none, some "ProvisionedThroughputExceededException") ∧
    cursorRequests (iteration scripted specCheckpoint "stream" "shard-0" workerA
        { svc := failingPollBackend, checkpoint := freshStore }).events =
      [{ ShardId := some "shard-0", StreamName := some "stream",
         ShardIteratorType := some "TRIM_HORIZON", StartingSequenceNumber := none }] ∧
    (iteration scripted specCheckpoint "stream" "shard-0" workerA
        { svc := failingPollBackend, checkpoint := freshStore }).result =
      Except.ok { buf := workerA.buf, shardIterator := some { addr := 3, val := "B" } } ∧
    workerA.shardIterator = some { addr := 1, val := "A" } ∧
    ¬ (cursorRequests (iteration scripted specCheckpoint "stream" "shard-0" workerA
          { svc := failingPollBackend, checkpoint := freshStore }).events = [] ∧
        (iteration scripted specCheckpoint "stream" "shard-0" workerA
          { svc := failingPollBackend, checkpoint := freshStore }).result =
          Except.ok workerA) := by
  refine ⟨rfl, rfl, rfl, rfl, ?_⟩
  intro h
  exact absurd h.1 (by decide)

/-! ## A failed checkpoint write -/

theorem recordStep_any_checkpoint {κ κ' : Type} (C : Checkpoint κ) (D : Checkpoint κ')
    (sh : String) (b : Buffer) (k : κ) (k' : κ') (r : Record) :
    (recordStep C sh (b, k) r).1.1 = (recordStep D sh (b, k') r).1.1 ∧
    (recordStep C sh (b, k) r).2 = (recordStep D sh (b, k') r).2 := by
  simp only [recordStep]
  split <;> exact ⟨rfl, rfl⟩

theorem recordsLoop_any_checkpoint {κ κ' : Type} (C : Checkpoint κ) (D : Checkpoint κ')
    (sh : String) :
    ∀ (rs : List Record) (b : Buffer) (k : κ) (k' : κ'),
      (recordsLoop C sh (b, k) rs).1.1 = (recordsLoop D sh (b, k') rs).1.1 ∧
      (recordsLoop C sh (b, k) rs).2 = (recordsLoop D sh (b, k') rs).2 := by
  intro rs
  induction rs with
  | nil => intro b k k'; exact ⟨rfl, rfl⟩
  | cons r rs ih =>
    intro b k k'
    obtain ⟨s1, s2⟩ := recordStep_any_checkpoint C D sh b k k' r
    have i := ih (recordStep C sh (b, k) r).1.1 (recordStep C sh (b, k) r).1.2
      (recordStep D sh (b, k') r).1.2
    have eC : (recordStep C sh (b, k) r).1 =
        ((recordStep C sh (b, k) r).1.1, (recordStep C sh (b, k) r).1.2) := rfl
    have eD : (recordStep D sh (b, k') r).1 =
        ((recordStep C sh (b, k) r).1.1, (recordStep D sh (b, k') r).1.2) := by
      rw [s1]
    simp only [recordsLoop]
    rw [eD, ← s2, eC]
    exact ⟨i.1, by rw [i.2]⟩

/-- Claim C6 as the code has it: `handlerLoop` drops whatever `SetCheckpoint` returns.
For any two checkpoint objects, in any states (so also one whose write fails and one
whose write succeeds), a per-record step and the whole records loop leave the same
buffer and emit the same effects, log entries included; and an iteration whose poll
answers with a next iterator that is not the pointer just used emits the same effects
and ends with the same buffer and the same iterator. -/
theorem C6_setCheckpoint_result_dropped {β κ κ' : Type} (K : Kinesis β)
    (C : Checkpoint κ) (D : Checkpoint κ') (stream sh : String) (wk : Worker) (svc : β)
    (k : κ) (k' : κ') :
    (∀ r, (recordStep C sh (wk.buf, k) r).1.1 = (recordStep D sh (wk.buf, k') r).1.1 ∧
      (recordStep C sh (wk.buf, k) r).2 = (recordStep D sh (wk.buf, k') r).2) ∧
    (∀ rs, (recordsLoop C sh (wk.buf, k) rs).1.1 = (recordsLoop D sh (wk.buf, k') rs).1.1 ∧
      (recordsLoop C sh (wk.buf, k) rs).2 = (recordsLoop D sh (wk.buf, k') rs).2) ∧
    (∀ out, (K.GetRecords svc { ShardIterator := wk.shardIterator }).1 = (some out, none) →
      needsNewIterator wk.shardIterator (some out) = false →
      (iteration K C stream sh wk { svc := svc, checkpoint := k }).events =
        (iteration K D stream sh wk { svc := svc, checkpoint := k' }).events ∧
      (iteration K C stream sh wk { svc := svc, checkpoint := k }).result =
        (iteration K D stream sh wk { svc := svc, checkpoint := k' }).result) := by
  refine ⟨fun r => recordStep_any_checkpoint C D sh wk.buf k k' r,
    fun rs => recordsLoop_any_checkpoint C D sh rs wk.buf k k', ?_⟩
  intro out hpoll hn
  obtain ⟨l1, l2⟩ := recordsLoop_any_checkpoint C D sh out.Records wk.buf k k'
  rw [iteration_of_poll_ok K C stream sh wk { svc := svc, checkpoint := k } out hpoll,
    iteration_of_poll_ok K D stream sh wk { svc := svc, checkpoint := k' } out hpoll]
  simp [nextIterator, hn, l1, l2]

/-- Counterexample to claim C6: a flush cycle (bound 1, one record) against a store
whose write fails and against a store whose write succeeds. The write does fail in the
one and succeed in the other, and the stores differ afterwards, but the worker's buffer
is cleared in both, the effects and log entries are the same, and the iteration ends
with the same worker state. -/
theorem C6_failed_write_same_behaviour :
    (specCheckpoint.SetCheckpoint failingStore "shard-0" "1").1 =
      some "checkpoint write failed" ∧
    (specCheckpoint.SetCheckpoint freshStore "shard-0" "1").1 = none ∧
    (recordStep specCheckpoint "shard-0" (emptyBuffer 1, failingStore) (recordOf "1")).1.2
      ≠ (recordStep specCheckpoint "shard-0" (emptyBuffer 1, freshStore) (recordOf "1")).1.2 ∧
    (recordStep specCheckpoint "shard-0" (emptyBuffer 1, failingStore) (recordOf "1")).1.1 =
      emptyBuffer 1 ∧
    (recordStep specCheckpoint "shard-0" (emptyBuffer 1, freshStore) (recordOf "1")).1.1 =
      emptyBuffer 1 ∧
    (recordStep specCheckpoint "shard-0" (emptyBuffer 1, failingStore) (recordOf "1")).2 =
      (recordStep specCheckpoint "shard-0" (emptyBuffer 1, freshStore) (recordOf "1")).2 ∧
    checkpointed
      (recordStep specCheckpoint "shard-0" (emptyBuffer 1, failingStore) (recordOf "1")).2 =
      [("shard-0", "1")] ∧
    (iteration scripted specCheckpoint "stream" "shard-0"
        { buf := emptyBuffer 1, shardIterator := some { addr := 1, val := "it-1" } }
        { svc := fiveBackend, checkpoint := failingStore }).result =
      (iteration scripted specCheckpoint "stream" "shard-0"
        { buf := emptyBuffer 1, shardIterator := some { addr := 1, val := "it-1" } }
        { svc := fiveBackend, checkpoint := freshStore }).result ∧
    (iteration scripted specCheckpoint "stream" "shard-0"
        { buf := emptyBuffer 1, shardIterator := some { addr := 1, val := "it-1" } }
        { svc := fiveBackend, checkpoint := failingStore }).events =
      (iteration scripted specCheckpoint "stream" "shard-0"
        { buf := emptyBuffer 1, shardIterator := some { addr := 1, val := "it-1" } }
        { svc := fiveBackend, checkpoint := freshStore }).events := by
  refine ⟨rfl, rfl, by decide, rfl, rfl, rfl, rfl, rfl, rfl⟩

/-! ## Re-deriving the cursor with records buffered -/

/-- Claim C10: choosing the next iterator never touches the buffer, and with bound 3,
no checkpoint stored, a first poll returning the records 1 and 2 and no next iterator,
and a second poll returning 1 and 2 again, `handlerLoop` asks twice for a
`TRIM_HORIZON` cursor, hands the batch 1, 2, 1 to the handler in its only handler call
and writes the checkpoint "1", while the record 2 was delivered in that batch. -/
theorem C10_replay_after_rederived_cursor :
    (∀ (b : Buffer) (it : Option StrPtr) (resp : Option GetRecordsOutput)
        (w : World Script CheckpointStore) (wk1 : Worker),
        (nextIterator scripted specCheckpoint "stream" "shard-0" b it resp w).result =
          Except.ok wk1 → wk1.buf = b) ∧
    cursorRequests (handlerLoop scripted specCheckpoint config3 "shard-0" 2
        { svc := replayBackend, checkpoint := freshStore }).events =
      [{ ShardId := some "shard-0", StreamName := some "stream",
         ShardIteratorType := some "TRIM_HORIZON", StartingSequenceNumber := none },
       { ShardId := some "shard-0", StreamName := some "stream",
         ShardIteratorType := some "TRIM_HORIZON", StartingSequenceNumber := none }] ∧
    handled (handlerLoop scripted specCheckpoint config3 "shard-0" 2
        { svc := replayBackend, checkpoint := freshStore }).events =
      [{ records := [recordOf "1", recordOf "2", recordOf "1"], MaxRecordCount := 3,
         shardID := "shard-0" }] ∧
    checkpointed (handlerLoop scripted specCheckpoint config3 "shard-0" 2
        { svc := replayBackend, checkpoint := freshStore }).events = [("shard-0", "1")] ∧
    (handlerLoop scripted specCheckpoint config3 "shard-0" 2
        { svc := replayBackend, checkpoint := freshStore }).result =
      Except.ok { buf := { records := [recordOf "2"], MaxRecordCount := 3,
                           shardID := "shard-0" },
                  shardIterator := some { addr := 5, val := "it-5" } } := by
  refine ⟨fun b it resp w wk1 h => nextIterator_buf _ _ _ _ _ _ _ _ _ h, rfl, rfl, rfl, rfl⟩

end Connector
